import Mathlib

/-!
Verification development for the positioning-visualizer repository.

The TypeScript sources are shallowly embedded over `Str := List Char`
(JavaScript strings are modelled as character lists; the character-wise
`Char.toLower`/`Char.toUpper` stand in for the JS `toLowerCase`/`toUpperCase`,
which agree on ASCII, the only case the repository exercises).  External
collaborators (Supabase tables and RPCs, the backend fetch endpoints, the
Web-Crypto SHA-256) are modelled by an explicit environment record `Env`:
each external call is a function of the environment, returning the same
shape of data the JS code destructures (a fetch response with an ok flag, a
Supabase response with data and error fields, `none` for a rejected promise).
Promise-returning service functions are embedded as `Except`-returning
functions so that an uncaught rejection is visible as `Except.error`.
-/

namespace PosViz

/-- JavaScript strings are modelled as lists of characters. -/
abbrev Str := List Char

/-- Character-wise lower-casing, the model of `String.prototype.toLowerCase`. -/
def lowerStr (s : Str) : Str := s.map Char.toLower

/-- Whitespace test used by the model of `String.prototype.trim` (the JS
`\s` class restricted to the characters that the repository data can contain). -/
def isWS (c : Char) : Bool := c == ' ' || c == '\t' || c == '\n' || c == '\r'

/-- Model of `String.prototype.trim`: drop leading and trailing whitespace. -/
def jsTrim (s : Str) : Str := ((s.dropWhile isWS).reverse.dropWhile isWS).reverse

/-- Model of `String.prototype.split` on a single separator character. -/
def splitOnChar (sep : Char) (s : Str) : List Str :=
  s.foldr (fun c acc =>
    match acc with
    | [] => if c == sep then [[], []] else [[c]]
    | piece :: rest => if c == sep then [] :: piece :: rest else (c :: piece) :: rest) [[]]

/-- Model of `Array.prototype.join` / `String.prototype` concatenation with a
separator (`List.intercalate`). -/
def joinSep (sep : Str) (xs : List Str) : Str := List.intercalate sep xs

/-- Model of `String.prototype.indexOf(pat, si)`: the least position `≥ si`
at which `pat` occurs in `src`, `none` when there is no occurrence. -/
def indexOfFrom (src pat : Str) (si : Nat) : Option Nat :=
  ((List.range (src.length + 1 - si)).find? (fun k => pat.isPrefixOf (src.drop (si + k)))).map
    (fun k => si + k)

/-- Model of `String.prototype.includes`. -/
def strIncludes (src pat : Str) : Bool := (indexOfFrom src pat 0).isSome

/-- Model of `String.prototype.startsWith`. -/
def strStartsWith (s pre : Str) : Bool := pre.isPrefixOf s

/-- Model of `String.prototype.substring(a, b)` for `a ≤ b` (the only way the
repository calls it): the characters at positions `a ≤ i < b`, clamped. -/
def substring (s : Str) (a b : Nat) : Str := (s.drop a).take (b - a)

/-- The truthiness-based `s || d` idiom on strings: `d` when `s` is empty. -/
def orDefault (s d : Str) : Str := if s = [] then d else s

/-- Model of `str.charAt(0).toUpperCase() + str.slice(1)`. -/
def capitalize (s : Str) : Str :=
  match s with
  | [] => []
  | c :: rest => c.toUpper :: rest

/-- The apostrophe character, used by some lexicon entries. -/
def apos : Char := Char.ofNat 39

theorem indexOfFrom_bounds {src pat : Str} {si fi : Nat}
    (h : indexOfFrom src pat si = some fi) :
    si ≤ fi ∧ fi + pat.length ≤ src.length := by
  unfold indexOfFrom at h
  rcases Option.map_eq_some'.mp h with ⟨k, hk, rfl⟩
  have hmem := List.mem_of_find?_eq_some hk
  have hpred := List.find?_some hk
  have hk' : k < src.length + 1 - si := List.mem_range.mp hmem
  have hpre : pat <+: src.drop (si + k) := by
    exact (List.isPrefixOf_iff_prefix).mp hpred
  have hlen : pat.length ≤ (src.drop (si + k)).length := hpre.length_le
  rw [List.length_drop] at hlen
  omega

theorem lowerStr_length (s : Str) : (lowerStr s).length = s.length := by
  simp [lowerStr]

/-! ## Data model (src/src/types/index.ts) -/

/-- Anchor of a `CoreMessaging` request: a type tag and free text content. -/
structure Anchor where
  type : Str
  content : Str
deriving DecidableEq

/-- The `CoreMessaging` request record (src/src/types/index.ts). -/
structure CoreMessaging where
  primaryAnchor : Anchor
  secondaryAnchor : Anchor
  problem : Str
  differentiator : Str
  icp : List Str
  thesis : List Str
  risks : List Str
deriving DecidableEq

/-- The `GenerationSettings` record; `temperature` and `top_p` are JS numbers,
modelled as rationals. -/
structure GenerationSettings where
  temperature : Rat
  top_p : Rat
deriving DecidableEq

/-- The `GeneratedContent` response record. -/
structure GeneratedContent where
  headline : Str
  subheadline : Str
  thesis : List Str
  risks : List Str
  opportunity : Str
deriving DecidableEq

/-- The `PositioningExample` row shape returned by the vector search
(src/src/services/simpleRAGService.ts).  The JS field `structure` is renamed
`structureLabel` because `structure` is a Lean keyword; `secondary_anchors`
(a `Record<string, any>` only ever populated with string values) is modelled
as an association list. -/
structure PositioningExample where
  id : Int
  company : Str
  tagline : Str
  anchor_type : Str
  primary_anchor : Str
  problem : Str
  differentiator : Str
  industry : Str
  effectiveness : Str
  icp : List Str
  tags : List Str
  tone : Str
  structureLabel : Str
  secondary_anchors : List (Str × Str)
  similarity : Rat
deriving DecidableEq

/-! ## Phrase attribution (src/src/components/canvas/PositioningCanvas.tsx) -/

/-- The problem-indicator lexicon of `identifyGeneratedPhrases`
(PositioningCanvas.tsx lines 38-42); identical to the list in
simpleRAGService.ts lines 348-352. -/
def problemIndicators : List Str :=
  ["lack".toList, "no".toList, "without".toList, "difficult".toList,
   "challenge".toList, "issue".toList, "problem".toList, "struggle".toList,
   "fail".toList, "unable".toList, "can".toList ++ [apos] ++ "t".toList,
   "don".toList ++ [apos] ++ "t".toList, "until".toList, "before".toList,
   "complain".toList, "frustrated".toList, "slow".toList, "manual".toList,
   "inefficient".toList, "time-consuming".toList, "expensive".toList,
   "costly".toList]

/-- The solution-indicator lexicon of `identifyGeneratedPhrases`
(PositioningCanvas.tsx lines 45-49).  Note the three entries
"our platform", "our solution" and "we" that the lexicon of the spec omits. -/
def solutionIndicators : List Str :=
  ["predicts".toList, "provides".toList, "enables".toList, "allows".toList,
   "helps".toList, "gives".toList, "offers".toList, "delivers".toList,
   "our platform".toList, "our solution".toList, "we".toList,
   "automatically".toList, "proactive".toList, "advance".toList,
   "real-time".toList, "instant".toList, "fast".toList, "efficient".toList,
   "easy".toList, "simple".toList, "automated".toList]

/-- Solution lexicon modelled from the words of the spec (section 4.4)
for comparison with the `solutionIndicators` of the code; it lacks
"our platform", "our solution" and "we". -/
def specSolutionLexicon : List Str :=
  ["predicts".toList, "provides".toList, "enables".toList, "allows".toList,
   "helps".toList, "gives".toList, "offers".toList, "delivers".toList,
   "automatically".toList, "proactive".toList, "advance".toList,
   "real-time".toList, "instant".toList, "fast".toList, "efficient".toList,
   "easy".toList, "simple".toList, "automated".toList]

/-- Number of lexicon terms present in the (already lower-cased) clause; the
model of the `reduce((score, indicator) => score + (lowerSentence.includes(indicator) ? 1 : 0), 0)`
pattern: each term contributes at most 1, presence is substring containment. -/
def indicatorScore (indicators : List Str) (lowerSentence : Str) : Nat :=
  (indicators.filter (fun ind => strIncludes lowerSentence ind)).length

/-- Classification outcome of a clause. -/
inductive ClauseKind where
  | problem
  | solution
deriving DecidableEq

/-- The branch structure of the per-clause decision of
`identifyGeneratedPhrases` (PositioningCanvas.tsx lines 63-84): problem when
the problem score is positive and exceeds the solution score, else solution
when the solution score is positive, else no tag. -/
def classifyDecision (problemScore solutionScore : Nat) : Option ClauseKind :=
  if problemScore > solutionScore && problemScore > 0 then some .problem
  else if solutionScore > 0 then some .solution
  else none

/-- The per-clause classification of `identifyGeneratedPhrases`
(PositioningCanvas.tsx lines 51-84): score the lower-cased clause against
both lexicons and decide. -/
def classifyClause (sentence : Str) : Option ClauseKind :=
  let lowerSentence := lowerStr sentence
  classifyDecision (indicatorScore problemIndicators lowerSentence)
    (indicatorScore solutionIndicators lowerSentence)

/-- Model of `breakIntoChunks` (PositioningCanvas.tsx lines 91-110):
overlapping word windows of `minWords`..`maxWords` words, plus the whole
text when it has at most `maxWords` words, deduplicated. -/
def breakIntoChunks (text : Str) (minWords maxWords : Nat) : List Str :=
  let words := (splitOnChar ' ' text).filter (fun w => w.length > 0)
  let chunks := (List.range (words.length + 1 - minWords)).filterMap (fun i =>
    let chunkLength := min maxWords (words.length - i)
    if chunkLength ≥ minWords then some (joinSep (" ".toList) ((words.drop i).take chunkLength))
    else none)
  let chunks := if words.length ≤ maxWords then chunks ++ [text] else chunks
  chunks.dedup

/-- A candidate phrase produced by `identifyGeneratedPhrases`: highlight text,
a color, and a descriptive type label. -/
structure Phrase where
  text : Str
  color : Str
  ptype : Str
deriving DecidableEq

/-- Model of `identifyGeneratedPhrases` (PositioningCanvas.tsx lines 12-88)
given the clause list already produced by the regex split of the subheadline
text; tags the chunks of each classified clause with the red or green color. -/
def tagClauses (clauses : List Str) : List Phrase :=
  clauses.flatMap (fun sentence =>
    match classifyClause sentence with
    | some .problem =>
        (breakIntoChunks (jsTrim sentence) 4 8).map
          (fun chunk => { text := chunk, color := "#fecaca".toList,
                          ptype := "Generated Problem Section".toList })
    | some .solution =>
        (breakIntoChunks (jsTrim sentence) 4 8).map
          (fun chunk => { text := chunk, color := "#dcfce7".toList,
                          ptype := "Generated Solution Section".toList })
    | none => [])

/-- First-occurrence-order deduplication: the model of `[...new Set(xs)]` and
of JS object key insertion order. -/
def dedupFirst {α : Type} [DecidableEq α] (l : List α) : List α :=
  l.foldl (fun acc x => if x ∈ acc then acc else acc ++ [x]) []

/-- A phrase located in the full text: `start`/`stop` are the character
offsets the merge phase computes (`end` in the JS code is a Lean keyword,
renamed `stop`). -/
structure PhrasePos where
  text : Str
  color : Str
  ptype : Str
  start : Nat
  stop : Nat
deriving DecidableEq

/-- Comparison relation of the `sort((a, b) => a.start - b.start)` call. -/
def posLE (a b : PhrasePos) : Prop := a.start ≤ b.start

instance : DecidableRel posLE := fun a b => inferInstanceAs (Decidable (a.start ≤ b.start))

instance : IsTotal PhrasePos posLE := ⟨fun a b => Nat.le_total a.start b.start⟩

instance : IsTrans PhrasePos posLE := ⟨fun _ _ _ h1 h2 => Nat.le_trans h1 h2⟩

/-- Locate each phrase of one color group in the full text
(PositioningCanvas.tsx lines 130-138): first case-insensitive occurrence,
drop the not-found ones, sort ascending by start (JS sort is stable;
insertion sort is the stable model). -/
def phrasePositions (colorPhrases : List Phrase) (fullText : Str) : List PhrasePos :=
  List.insertionSort posLE (colorPhrases.filterMap (fun ph =>
    (indexOfFrom (lowerStr fullText) (lowerStr ph.text) 0).map (fun i =>
      { text := ph.text, color := ph.color, ptype := ph.ptype,
        start := i, stop := i + ph.text.length })))

/-- The merge loop of `mergeOverlappingPhrases` (PositioningCanvas.tsx lines
143-161): extend the current span while the next starts within 2 characters
of its end, otherwise emit it and continue from the next span. -/
def mergeLoop (cur : PhrasePos) : List PhrasePos → List PhrasePos
  | [] => [cur]
  | x :: rest =>
      if x.start ≤ cur.stop + 2 then
        mergeLoop { cur with stop := max cur.stop x.stop } rest
      else
        cur :: mergeLoop x rest

/-- The merged span list `mergeOverlappingPhrases` computes for one color. -/
def mergedSpansForColor (phrases : List Phrase) (fullText : Str) (color : Str) :
    List PhrasePos :=
  match phrasePositions (phrases.filter (fun p => p.color == color)) fullText with
  | [] => []
  | x :: xs => mergeLoop x xs

/-- Model of `mergeOverlappingPhrases` (PositioningCanvas.tsx lines 113-175):
group candidate phrases by color (object-key insertion order), locate, sort
and merge each group, and emit the merged text extracted from the full text. -/
def mergeOverlappingPhrases (phrases : List Phrase) (fullText : Str) : List Phrase :=
  if phrases = [] then []
  else
    (dedupFirst (phrases.map (fun p => p.color))).flatMap (fun color =>
      (mergedSpansForColor phrases fullText color).map (fun m =>
        { text := substring fullText m.start m.stop, color := color,
          ptype := m.ptype }))

/-! ## Render-time resolution (`createHighlightedText`,
PositioningCanvas.tsx lines 178-257) -/

/-- A highlight request: phrase text and color. -/
structure Highlight where
  text : Str
  color : Str
deriving DecidableEq

/-- An entry of the position-to-highlight map (`highlightMap`): key `pos`,
value holding color and length. -/
structure HLEntry where
  pos : Nat
  len : Nat
  color : Str
deriving DecidableEq

/-- The `canHighlight` scan (PositioningCanvas.tsx lines 195-201): every
position of the candidate range must be absent from the map keys.  Note only
map *keys* (start positions) are tested, exactly as `highlightMap.has(i)`
does. -/
def rangeFree (entries : List HLEntry) (fi len : Nat) : Bool :=
  (List.range len).all (fun k => !(entries.any (fun e => e.pos == fi + k)))

/-- Model of `Map.set`: replace the entry with the same key in place, else
append. -/
def mapSet (entries : List HLEntry) (e : HLEntry) : List HLEntry :=
  if entries.any (fun x => x.pos == e.pos) then
    entries.map (fun x => if x.pos == e.pos then e else x)
  else entries ++ [e]

/-- The `while (searchIndex < sourceText.length)` loop of
`createHighlightedText` (lines 190-213): find the first occurrence at or
after `si`; insert it when its range is free of existing keys and stop, else
retry from one past the found index.  The JS loop always terminates because
`searchIndex` strictly increases; `fuel` (instantiated with
`text.length + 1`) bounds the iteration count in the model. -/
def insertLoop (srcLower patLower color : Str) (patLen : Nat)
    (entries : List HLEntry) : Nat → Nat → List HLEntry
  | _, 0 => entries
  | si, fuel + 1 =>
    if si < srcLower.length then
      match indexOfFrom srcLower patLower si with
      | none => entries
      | some fi =>
          if rangeFree entries fi patLen then mapSet entries ⟨fi, patLen, color⟩
          else insertLoop srcLower patLower color patLen entries (fi + 1) fuel
    else entries

/-- Build the `highlightMap` by running the insertion loop for each highlight
in order (PositioningCanvas.tsx lines 185-213). -/
def buildHighlightMap (text : Str) (highlights : List Highlight) : List HLEntry :=
  highlights.foldl (fun entries hl =>
    insertLoop (lowerStr text) (lowerStr hl.text) hl.color hl.text.length
      entries 0 (text.length + 1)) []

/-- An emitted run: a highlighted or plain segment of the text, with the
absolute character offsets the walk uses. -/
inductive Run where
  | highlighted (start stop : Nat) (chunk : Str) (color : Str)
  | plain (start stop : Nat) (chunk : Str)
deriving DecidableEq

/-- The text carried by a run. -/
def Run.chunk : Run → Str
  | .highlighted _ _ c _ => c
  | .plain _ _ c => c

/-- The start offset of a run. -/
def Run.start : Run → Nat
  | .highlighted s _ _ _ => s
  | .plain s _ _ => s

/-- The stop offset of a run. -/
def Run.stop : Run → Nat
  | .highlighted _ t _ _ => t
  | .plain _ t _ => t

/-- Whether a run is a highlighted span. -/
def Run.isHighlighted : Run → Bool
  | .highlighted _ _ _ _ => true
  | .plain _ _ _ => false

/-- The `nextHighlight` computation of the walk (lines 236-241): the least
map key strictly greater than `i`, defaulting to the text length. -/
def nextStop (entries : List HLEntry) (tlen i : Nat) : Nat :=
  entries.foldl (fun acc e => if e.pos > i && e.pos < acc then e.pos else acc) tlen

/-- The left-to-right walk of `createHighlightedText` (lines 216-254).  At a
claimed position emit the highlighted run and jump past it; otherwise emit
the plain segment up to the next claimed position.  The JS loop fails to
terminate when a zero-length entry is claimed (then `i` never advances);
`fuel` makes that observable as `none`. -/
def walkAux (text : Str) (entries : List HLEntry) : Nat → Nat → Option (List Run)
  | 0, _ => none
  | fuel + 1, i =>
    if i < text.length then
      match entries.find? (fun e => e.pos == i) with
      | some e =>
          (walkAux text entries fuel (i + e.len)).map
            (fun rs => .highlighted i (i + e.len) (substring text i (i + e.len)) e.color :: rs)
      | none =>
          let nxt := nextStop entries text.length i
          let seg := substring text i nxt
          (walkAux text entries fuel nxt).map
            (fun rs => if seg = [] then rs else .plain i nxt seg :: rs)
    else some []

/-- Model of `createHighlightedText` (PositioningCanvas.tsx lines 178-257):
build the position map, then walk the text; `none` models the JS walk
failing to terminate.  The JS fallback return for an empty element list is a
single plain span holding the whole text. -/
def createHighlightedText (text : Str) (highlights : List Highlight) : Option (List Run) :=
  (walkAux text (buildHighlightMap text highlights) (text.length + 1) 0).map
    (fun rs => if rs = [] then [.plain 0 text.length text] else rs)

/-- Concatenation of the chunks of a run list. -/
def runsConcat (rs : List Run) : Str := (rs.map Run.chunk).flatten

/-! ## RAG service (src/src/services/simpleRAGService.ts)

External collaborators are collected in an `Env` record; every field models
one observable outcome of an external call.  `none` on a fetch field models a
rejected promise (network failure); `Except.error` on a Supabase field models
a thrown error, which the service code always catches. -/

/-- Response of the backend `/api/generate-embedding` fetch. -/
structure FetchEmbResp where
  ok : Bool
  embedding : List Int
deriving DecidableEq

/-- Response of the backend `/api/generate-positioning` fetch. -/
structure FetchGenResp where
  ok : Bool
  success : Bool
  content : Str
deriving DecidableEq

/-- Supabase data/error response of the `find_similar_examples` RPC. -/
structure VectorResp where
  data : Option (List PositioningExample)
  error : Option Str

/-- The environment of external collaborators.  Embedding components are
never inspected by the service code (no client-side arithmetic on them),
so they are modelled as integers. -/
structure Env where
  hash : Str → Str
  now : Nat
  genCache : Str → Option (GeneratedContent × Nat)
  genCacheReadThrows : Str → Bool
  genCacheWriteFails : Bool
  memCache : Str → Option (List Int)
  embedDb : Str → Except Unit (Option (List Int))
  embedFetch : Str → Option FetchEmbResp
  embedInsertThrows : Bool
  vectorSearch : List Int → Rat → Nat → Except Unit VectorResp
  genFetch : Str → GenerationSettings → Nat → Option FetchGenResp

/-- A write to the `generation_cache` table performed by `cacheResult`. -/
structure CacheWrite where
  key : Str
  content : GeneratedContent
  expires_at : Nat
deriving DecidableEq

/-- Log of the externally observable effects of one `generatePositioning`
run: whether the generation service fetch was issued, and the generation
cache writes. -/
structure RunLog where
  genCalled : Bool
  writes : List CacheWrite
deriving DecidableEq

/-- Model of `Math.round`: round half toward positive infinity. -/
def jsRound (x : Rat) : Int := ⌊x + 1/2⌋

/-- The `keyData` object of `generateCacheKey`
(simpleRAGService.ts lines 476-482). -/
structure KeyData where
  primary : Str
  problem : Str
  diff : Str
  temp : Int
  top_p : Int
deriving DecidableEq

/-- Field normalization of `generateCacheKey`: lower-cased trimmed primary
anchor content, lower-cased first 50 characters of problem and
differentiator, `Math.round(x * 10)` of temperature and top_p. -/
def mkKeyData (cm : CoreMessaging) (settings : GenerationSettings) : KeyData :=
  { primary := jsTrim (lowerStr cm.primaryAnchor.content),
    problem := lowerStr (cm.problem.take 50),
    diff := lowerStr (cm.differentiator.take 50),
    temp := jsRound (settings.temperature * 10),
    top_p := jsRound (settings.top_p * 10) }

/-- JSON string escaping restricted to the characters that require it in the
repository data (quote and backslash). -/
def jsonEscape (s : Str) : Str :=
  s.flatMap (fun c =>
    if c == '"' then ['\\', '"'] else if c == '\\' then ['\\', '\\'] else [c])

/-- A JSON string literal. -/
def jsonQuote (s : Str) : Str := '"' :: (jsonEscape s ++ ['"'])

/-- Decimal rendering of an integer, as `JSON.stringify` renders the two
integer fields. -/
def intStr (i : Int) : Str := (toString i).toList

/-- Model of `JSON.stringify(keyData)`: fields in insertion order. -/
def serializeKeyData (kd : KeyData) : Str :=
  "\x7b\"primary\":".toList ++ jsonQuote kd.primary ++
  ",\"problem\":".toList ++ jsonQuote kd.problem ++
  ",\"diff\":".toList ++ jsonQuote kd.diff ++
  ",\"temp\":".toList ++ intStr kd.temp ++
  ",\"top_p\":".toList ++ intStr kd.top_p ++ "\x7d".toList

/-- Model of `generateCacheKey` (simpleRAGService.ts lines 475-485): hash of
the serialized normalized key data.  `hashFn` abstracts the SHA-256 of
`hashString`; the service only ever uses it as a deterministic function of
its input string. -/
def generateCacheKey (hashFn : Str → Str) (cm : CoreMessaging)
    (settings : GenerationSettings) : Str :=
  hashFn (serializeKeyData (mkKeyData cm settings))

/-- The fixed TTL of the generation cache: 7 days in milliseconds. -/
def sevenDaysMs : Nat := 7 * 24 * 60 * 60 * 1000

/-- Model of `getCachedResult` (simpleRAGService.ts lines 496-519): a hit
requires a stored row whose `expires_at` is strictly greater than now; any
thrown error is caught and treated as a miss.  The best-effort
`increment_cache_hit` RPC does not influence the returned value. -/
def getCachedResult (env : Env) (cacheKey : Str) : Option GeneratedContent :=
  if env.genCacheReadThrows cacheKey then none
  else
    match env.genCache cacheKey with
    | some (content, expiresAt) => if env.now < expiresAt then some content else none
    | none => none

/-- Model of `cacheResult` (simpleRAGService.ts lines 521-531) as the list of
upsert writes it performs: one write with `expires_at = now + 7 days`, or
none when the upsert throws (the error is caught and swallowed). -/
def cacheResultWrites (env : Env) (cacheKey : Str) (result : GeneratedContent) :
    List CacheWrite :=
  if env.genCacheWriteFails then []
  else [{ key := cacheKey, content := result, expires_at := env.now + sevenDaysMs }]

/-- Model of `generateEmbedding` (simpleRAGService.ts lines 168-187): throws
on network failure or a non-ok response, else returns the embedding. -/
def generateEmbedding (env : Env) (text : Str) : Except Str (List Int) :=
  match env.embedFetch text with
  | none => .error ("Backend embedding request failed".toList)
  | some r =>
      if !r.ok then .error ("Backend embedding failed".toList)
      else .ok r.embedding

/-- Model of `getEmbeddingCached` (simpleRAGService.ts lines 126-165):
memory-map lookup, then persistent-cache lookup, then the embedding service
with a write-through insert; any error anywhere in the try block is caught
and replaced by the 1536-dimensional zero vector.  A thrown cache insert
discards the computed embedding (the catch returns the zero vector). -/
def getEmbeddingCached (env : Env) (text : Str) : List Int :=
  let textHash := env.hash (jsTrim (lowerStr text))
  match env.memCache textHash with
  | some v => v
  | none =>
    match env.embedDb textHash with
    | .error _ => List.replicate 1536 0
    | .ok (some v) => v
    | .ok none =>
      match generateEmbedding env text with
      | .error _ => List.replicate 1536 0
      | .ok emb => if env.embedInsertThrows then List.replicate 1536 0 else emb

/-- The failure condition of the embedding chain: memory miss together with
a thrown persistent-cache read, or a persistent-cache miss followed by a
failed service call or a thrown write-through insert. -/
def embedChainFails (env : Env) (text : Str) : Bool :=
  let textHash := env.hash (jsTrim (lowerStr text))
  (env.memCache textHash).isNone &&
    (match env.embedDb textHash with
     | .error _ => true
     | .ok (some _) => false
     | .ok none =>
        match env.embedFetch text with
        | none => true
        | some r => !r.ok || env.embedInsertThrows)

/-- The environment honours the fixed embedding dimensionality of the spec:
D = 1536 on every channel that can supply an embedding. -/
def envEmb1536 (env : Env) : Prop :=
  (∀ h v, env.memCache h = some v → v.length = 1536) ∧
  (∀ h v, env.embedDb h = .ok (some v) → v.length = 1536) ∧
  (∀ t r, env.embedFetch t = some r → r.embedding.length = 1536)

/-- The hard-coded fallback example list of `getFallbackExamples`
(simpleRAGService.ts lines 534-555). -/
def getFallbackExamples : List PositioningExample :=
  [{ id := 1,
     company := "Wynter".toList,
     tagline := "On-demand market research platform for B2B".toList,
     anchor_type := "Product Category".toList,
     primary_anchor := "market research platform".toList,
     problem := "B2B leaders don".toList ++ [apos] ++
       "t know what their target market wants".toList,
     differentiator := "Get market insights in under 48 hours vs traditional research".toList,
     industry := "market research".toList,
     effectiveness := "high".toList,
     icp := ["B2B SaaS founders".toList, "Product marketing managers".toList],
     tags := ["speed-focused".toList, "b2b-saas".toList],
     tone := "professional".toList,
     structureLabel := "problem-solution".toList,
     secondary_anchors := [("audience".toList, "B2B leaders".toList),
                           ("speed".toList, "48 hours".toList)],
     similarity := 8/10 }]

/-- Model of `findSimilarExamples` (simpleRAGService.ts lines 99-123): embed
the user text, query the vector store (threshold 0.6), fall back to the
hard-coded examples on a returned error, a thrown error, or a null row set.
An empty row list is truthy in JS, so `data || fallback` returns it as-is. -/
def findSimilarExamples (env : Env) (userText : Str) (limit : Nat) :
    List PositioningExample :=
  let embedding := getEmbeddingCached env userText
  match env.vectorSearch embedding (6/10) limit with
  | .error _ => getFallbackExamples
  | .ok resp =>
      if resp.error.isSome then getFallbackExamples
      else
        match resp.data with
        | some rows => rows
        | none => getFallbackExamples

/-- Model of `buildUserText` (simpleRAGService.ts lines 222-230): the
non-empty components joined with single spaces. -/
def buildUserText (cm : CoreMessaging) : Str :=
  joinSep [' ']
    (([cm.primaryAnchor.content, cm.secondaryAnchor.content, cm.problem,
       cm.differentiator, joinSep [' '] cm.icp]).filter (fun x => !x.isEmpty))

/-- Model of `buildContext` (simpleRAGService.ts lines 233-243): one block
per example, blocks joined with blank lines. -/
def buildContext (examples : List PositioningExample) : Str :=
  if examples.isEmpty then []
  else
    joinSep ("\n\n".toList) (examples.map (fun e =>
      e.company ++ " (".toList ++ e.anchor_type ++ "): \"".toList ++
      e.tagline ++ "\"\n".toList ++
      "ICP: ".toList ++ joinSep (", ".toList) e.icp ++ [Char.ofNat 10] ++
      "Problem: ".toList ++ e.problem ++ [Char.ofNat 10] ++
      "Solution: ".toList ++ e.differentiator ++ [Char.ofNat 10] ++
      "Structure: ".toList ++ e.structureLabel))

/-- Model of `buildPrompt` (simpleRAGService.ts lines 246-280): the grounded
prompt template with the literal field values of the request interpolated. -/
def buildPrompt (cm : CoreMessaging) (context : Str) : Str :=
  let icpText :=
    if !cm.icp.isEmpty then "ICP: ".toList ++ joinSep (", ".toList) cm.icp ++ [Char.ofNat 10]
    else []
  "Based on these successful positioning examples:\n\n".toList ++ context ++
  "\n\nCreate positioning for:\nPrimary Anchor: ".toList ++ cm.primaryAnchor.content ++
  " (".toList ++ cm.primaryAnchor.type ++ ")\nSecondary Anchor: ".toList ++
  cm.secondaryAnchor.content ++ " (".toList ++ cm.secondaryAnchor.type ++
  ")\n".toList ++ icpText ++ "Problem: ".toList ++ cm.problem ++
  "\nDifferentiator: ".toList ++ cm.differentiator ++
  "\n\nPOSITIONING RULES - CRITICAL:\n- HEADLINE must include BOTH anchors: \"".toList ++
  cm.primaryAnchor.content ++ "\" for \"".toList ++ cm.secondaryAnchor.content ++
  [' '] ++ joinSep (", ".toList) cm.icp ++
  "\"\n- Do NOT add extra details like employee counts or company sizes - keep it natural\n- SUBHEADLINE must be concise (1-2 sentences max) combining problem + solution\n- Keep the core meaning from: \"".toList ++
  substring cm.problem 0 80 ++
  "...\" \n- And solution: \"".toList ++
  substring cm.differentiator 0 80 ++
  "...\"\n- CRITICAL: Ensure smooth logical flow between problem and solution\n- Use proper transitions: \"While X happens, Y solves it\" OR \"X creates problems. Y provides the solution\" \n- Avoid awkward \"but\" connections that don".toList ++
  [apos] ++
  "t flow logically\n- Make it flow naturally but KEEP IT CONCISE - avoid long explanations\n- NO generic positioning language: avoid \"say goodbye\", \"transform\", \"unlock\", etc.\n- Focus on specific, concrete benefits\n\nGenerate professional positioning copy:\n\nFormat your response exactly like this:\nHEADLINE: [primary anchor] for [secondary anchor] [ICP target] (natural phrasing, no extra details)\nSUBHEADLINE: [concise problem + solution in 1-2 sentences]\nOPPORTUNITY: [market opportunity statement referencing specific segments]".toList

/-- Sentence-terminator class of the degraded-parse split `/[.!?]+/`. -/
def isTermCh (c : Char) : Bool := c == '.' || c == '!' || c == '?'

theorem length_dropWhile_le (p : Char → Bool) (l : Str) :
    (l.dropWhile p).length ≤ l.length := by
  induction l with
  | nil => simp [List.dropWhile]
  | cons c rest ih =>
      by_cases h : p c <;> simp [List.dropWhile, h]
      exact Nat.le_succ_of_le ih

/-- Model of `String.prototype.split(/[.!?]+/)`: split at each maximal run
of sentence terminators, keeping empty boundary pieces as the JS regex split
does. -/
def splitTermRuns : Str → List Str
  | [] => [[]]
  | c :: rest =>
    if isTermCh c then
      [] :: splitTermRuns (rest.dropWhile isTermCh)
    else
      match splitTermRuns rest with
      | [] => [[c]]
      | piece :: more => (c :: piece) :: more
termination_by s => s.length
decreasing_by
  · simpa using Nat.lt_succ_of_le (length_dropWhile_le isTermCh rest)
  · simp

/-- Model of `generatedText.replace(/^Solve\s*/i, '')`: strip a leading
case-insensitive `Solve` together with the whitespace after it. -/
def stripLeadingSolve (t : Str) : Str :=
  if lowerStr (t.take 5) = "solve".toList then (t.drop 5).dropWhile isWS else t

/-- Model of `parseResponse` (simpleRAGService.ts lines 283-338): scan the
non-blank lines for the `HEADLINE:` / `SUBHEADLINE:` / `OPPORTUNITY:`
prefixes (an `OPPORTUNITY:` line absorbs following lines until one contains
a colon); when none of the three was found, apply the degraded sentence
parse; finally substitute the default texts for still-empty fields.  The
returned `thesis` and `risks` are the empty lists (the accompanying source
comment reads `Keep user input from form`).  The optional `CoreMessaging`
argument is only used by the source for console logging. -/
def parseResponse (generatedText : Str) (_cm : Option CoreMessaging) :
    GeneratedContent :=
  let lines := (splitOnChar (Char.ofNat 10) generatedText).filter
    (fun l => !(jsTrim l).isEmpty)
  let scan := lines.foldl (fun (acc : Str × Str × Str) line =>
    match acc with
    | (h, s, o) =>
      if strStartsWith line ("HEADLINE:".toList) then (jsTrim (line.drop 9), s, o)
      else if strStartsWith line ("SUBHEADLINE:".toList) then (h, jsTrim (line.drop 12), o)
      else if strStartsWith line ("OPPORTUNITY:".toList) then
        let base := jsTrim (line.drop 12)
        let currentIndex := lines.findIdx (fun l2 => l2 == line)
        let extra := (lines.drop (currentIndex + 1)).takeWhile
          (fun l2 => !(strIncludes l2 [':']))
        (h, s, extra.foldl (fun o2 l2 => o2 ++ [' '] ++ jsTrim l2) base)
      else (h, s, o)) ([], [], [])
  let h := scan.1
  let s := scan.2.1
  let o := scan.2.2
  let hs :=
    if h.isEmpty && s.isEmpty && o.isEmpty then
      let cleanedText := jsTrim (stripLeadingSolve generatedText)
      let sentences := (splitTermRuns cleanedText).filter (fun x => !(jsTrim x).isEmpty)
      match sentences with
      | s0 :: s1 :: rest =>
          (capitalize (jsTrim s0),
           capitalize (jsTrim (joinSep (". ".toList) (s1 :: rest))))
      | _ => (h, s)
    else (h, s)
  { headline := orDefault hs.1 ("Professional solution for your needs".toList),
    subheadline := orDefault hs.2 ("Streamline your workflow without complexity".toList),
    thesis := [],
    risks := [],
    opportunity := orDefault o ("Significant market opportunity for targeted solutions".toList) }

/-- Model of `createFallbackContent` (simpleRAGService.ts lines 557-570):
deterministic template substitution; `thesis` and `risks` are copied from
the request. -/
def createFallbackContent (cm : CoreMessaging) : GeneratedContent :=
  let primaryAnchor := cm.primaryAnchor.content
  let secondaryAnchor := cm.secondaryAnchor.content
  { headline :=
      if !secondaryAnchor.isEmpty then
        primaryAnchor ++ " for ".toList ++ lowerStr secondaryAnchor
      else "Professional ".toList ++ primaryAnchor,
    subheadline :=
      "Solve ".toList ++ lowerStr cm.problem ++ " with ".toList ++
        lowerStr cm.differentiator,
    thesis := cm.thesis,
    risks := cm.risks,
    opportunity :=
      (if !secondaryAnchor.isEmpty then secondaryAnchor else "Businesses".toList) ++
        " can improve efficiency by implementing ".toList ++ primaryAnchor ++
        " solutions.".toList }

/-- Model of `generateWithSettings` (simpleRAGService.ts lines 190-219):
fetch the generation endpoint with the prompt, the sampling settings and the
fixed 800 max-token budget; throw on network failure, a non-ok status, or an
unsuccessful response; parse the content on success. -/
def generateWithSettings (env : Env) (prompt : Str) (settings : GenerationSettings)
    (cm : CoreMessaging) : Except Str GeneratedContent :=
  match env.genFetch prompt settings 800 with
  | none => .error ("Generation with settings failed".toList)
  | some r =>
      if !r.ok then .error ("Generation failed".toList)
      else if r.success then .ok (parseResponse r.content (some cm))
      else .error ("Backend returned unsuccessful response".toList)

/-- The try block of `generatePositioning` (simpleRAGService.ts lines
68-91): cache gate, retrieval, prompt building, generation, cache write.
The pair carries the effect log; `Except.error` is the uncaught exception
that the enclosing catch converts into the fallback.  `getCachedResult`,
`findSimilarExamples` and `cacheResult` absorb their own failures and cannot
throw; `generateWithSettings` is the only throw site. -/
def generateAttempt (env : Env) (cm : CoreMessaging) (settings : GenerationSettings) :
    Except Str GeneratedContent × RunLog :=
  let cacheKey := generateCacheKey env.hash cm settings
  match getCachedResult env cacheKey with
  | some cached => (.ok cached, { genCalled := false, writes := [] })
  | none =>
    let userText := buildUserText cm
    let similarExamples := findSimilarExamples env userText 3
    let context := buildContext similarExamples
    let prompt := buildPrompt cm context
    match generateWithSettings env prompt settings cm with
    | .ok result =>
        (.ok result, { genCalled := true, writes := cacheResultWrites env cacheKey result })
    | .error e => (.error e, { genCalled := true, writes := [] })

/-- Model of `generatePositioning` (simpleRAGService.ts lines 62-96): run
the try block; the catch turns any thrown error into
`createFallbackContent` (returned without caching).  The result is an
`Except` mirroring the returned promise, so an uncaught rejection would be
visible as `Except.error`.  The preceding initialization step catches its
own errors and does not influence the result. -/
def generatePositioning (env : Env) (cm : CoreMessaging)
    (settings : GenerationSettings) : Except Str (GeneratedContent × RunLog) :=
  match generateAttempt env cm settings with
  | (.ok content, log) => .ok (content, log)
  | (.error _, log) => .ok (createFallbackContent cm, log)

/-- The condition under which the generation-service call of the pipeline
run fails (network rejection, non-ok status, or unsuccessful payload), for
the prompt the pipeline actually builds. -/
def genCallFails (env : Env) (cm : CoreMessaging) (settings : GenerationSettings) : Bool :=
  let prompt := buildPrompt cm (buildContext (findSimilarExamples env (buildUserText cm) 3))
  match env.genFetch prompt settings 800 with
  | none => true
  | some r => !r.ok || !r.success

/-! ## Concrete sample data for witnesses -/

/-- A concrete sample request. -/
def cmSample : CoreMessaging :=
  { primaryAnchor := { type := "Product Category".toList, content := "AI Task Manager".toList },
    secondaryAnchor := { type := "Company Type".toList, content := "Remote Teams".toList },
    problem := "Teams waste hours manually tracking tasks".toList,
    differentiator := "Automated real-time dashboards that update instantly".toList,
    icp := ["Engineering managers".toList],
    thesis := ["Strong demand for automation".toList],
    risks := ["Crowded market".toList] }

/-- A request agreeing with `cmSample` on every cache-key field while
differing in primary-anchor case and padding, secondary anchor, ICP, thesis
and risks. -/
def cmKeyVariant : CoreMessaging :=
  { primaryAnchor := { type := "Use Case".toList, content := "  ai task MANAGER ".toList },
    secondaryAnchor := { type := "Department".toList, content := "Finance Departments".toList },
    problem := "Teams waste hours manually tracking tasks".toList,
    differentiator := "Automated real-time dashboards that update instantly".toList,
    icp := [],
    thesis := [],
    risks := ["Other risk".toList] }

/-- The default sampling settings of the service. -/
def settingsSample : GenerationSettings := { temperature := 3/10, top_p := 8/10 }

/-- An environment in which both cache tiers miss and every external service
call fails. -/
def baseEnv : Env :=
  { hash := fun _ => "K".toList,
    now := 0,
    genCache := fun _ => none,
    genCacheReadThrows := fun _ => false,
    genCacheWriteFails := false,
    memCache := fun _ => none,
    embedDb := fun _ => .ok none,
    embedFetch := fun _ => none,
    embedInsertThrows := false,
    vectorSearch := fun _ _ _ => .ok { data := some [], error := none },
    genFetch := fun _ _ _ => none }

/-- The `baseEnv` variant whose generation service succeeds with a
well-formed three-line response. -/
def envGenOK : Env :=
  { baseEnv with
    genFetch := fun _ _ _ => some
      { ok := true, success := true,
        content := "HEADLINE: Alpha\nSUBHEADLINE: Beta\nOPPORTUNITY: Gamma".toList } }

/-- The content `parseResponse` produces for the response of `envGenOK`. -/
def contentSample : GeneratedContent :=
  { headline := "Alpha".toList, subheadline := "Beta".toList,
    thesis := [], risks := [], opportunity := "Gamma".toList }

/-- The `envGenOK` variant whose generation cache holds the entry a first
run wrote, observed at a later time still before the expiry. -/
def envCacheHit : Env :=
  { envGenOK with
    genCache := fun _ => some (contentSample, 604800000),
    now := 12345 }

/-! ## Claim theorems -/

/-- C1 (corrected): `thesis` and `risks` are copied unchanged from the
request only on the failure-fallback path (`createFallbackContent`); on the
successful-generation path `parseResponse` always returns them as empty
lists, and a pipeline run past the cache gate returns either the parsed
content (empty `thesis`/`risks`) or the fallback content (the `thesis` and
`risks` of the request). -/
theorem thesis_risks_paths (cm : CoreMessaging) (text : Str) :
    (parseResponse text (some cm)).thesis = [] ∧
    (parseResponse text (some cm)).risks = [] ∧
    (createFallbackContent cm).thesis = cm.thesis ∧
    (createFallbackContent cm).risks = cm.risks ∧
    (∀ env settings r log,
      generatePositioning env cm settings = .ok (r, log) →
      getCachedResult env (generateCacheKey env.hash cm settings) = none →
      (r.thesis = [] ∧ r.risks = []) ∨
      (r.thesis = cm.thesis ∧ r.risks = cm.risks)) := by
  refine ⟨rfl, rfl, rfl, rfl, ?_⟩
  intro env settings r log hrun hmiss
  simp only [generatePositioning, generateAttempt, hmiss] at hrun
  cases hg : generateWithSettings env
      (buildPrompt cm (buildContext (findSimilarExamples env (buildUserText cm) 3)))
      settings cm with
  | ok result =>
      rw [hg] at hrun
      simp only [Except.ok.injEq, Prod.mk.injEq] at hrun
      left
      rw [← hrun.1]
      simp only [generateWithSettings] at hg
      cases hf : env.genFetch
          (buildPrompt cm (buildContext (findSimilarExamples env (buildUserText cm) 3)))
          settings 800 with
      | none => rw [hf] at hg; exact absurd hg (by simp)
      | some resp =>
          rw [hf] at hg
          by_cases hok : resp.ok
          · by_cases hsucc : resp.success
            · simp [hok, hsucc] at hg
              rw [← hg]
              exact ⟨rfl, rfl⟩
            · simp [hok, hsucc] at hg
          · simp [hok] at hg
  | error e =>
      rw [hg] at hrun
      simp only [Except.ok.injEq, Prod.mk.injEq] at hrun
      right
      rw [← hrun.1]
      exact ⟨rfl, rfl⟩

/-- C1 counterexample: on the successful-generation path the returned
`thesis` is the empty list, not the non-empty `thesis` of the request, so the
claim as stated fails. -/
theorem thesis_not_passed_on_parse_path :
    (parseResponse ("HEADLINE: Alpha".toList) (some cmSample)).thesis ≠ cmSample.thesis := by
  decide

/-- C1 witness: the fallback path at a concrete request keeps the
`thesis`, and a concrete pipeline run past the cache gate lands in one of
the two characterized branches. -/
theorem thesis_risks_paths_witness :
    (createFallbackContent cmSample).thesis = cmSample.thesis ∧
    (((createFallbackContent cmSample).thesis = [] ∧
      (createFallbackContent cmSample).risks = []) ∨
     ((createFallbackContent cmSample).thesis = cmSample.thesis ∧
      (createFallbackContent cmSample).risks = cmSample.risks)) :=
  ⟨(thesis_risks_paths cmSample []).2.2.1,
   (thesis_risks_paths cmSample []).2.2.2.2 baseEnv settingsSample
     (createFallbackContent cmSample) { genCalled := true, writes := [] }
     (by rfl) (by rfl)⟩

/-- C2 (confirmed): the pipeline never propagates an error to the caller:
for every environment and request, `generatePositioning` resolves with a
`GeneratedContent` value (the catch converts the only throw site,
`generateWithSettings`, into the deterministic fallback; retrieval and both
cache tiers absorb their own failures). -/
theorem generatePositioning_total (env : Env) (cm : CoreMessaging)
    (settings : GenerationSettings) :
    ∃ r, generatePositioning env cm settings = .ok r := by
  unfold generatePositioning
  rcases hA : generateAttempt env cm settings with ⟨res, log⟩
  cases res with
  | ok c => exact ⟨(c, log), rfl⟩
  | error e => exact ⟨(createFallbackContent cm, log), rfl⟩

/-- C3 (corrected): when the cache gate misses and the generation-service
call fails in any way, the pipeline returns exactly the deterministic
template fallback and performs no generation-cache write; the fallback
headline is "primaryAnchor for secondaryAnchor" with the secondary
anchor lower-cased (else "Professional primaryAnchor"), and the
subheadline is "Solve problem with differentiator" with problem and
differentiator lower-cased. -/
theorem generation_failure_fallback (env : Env) (cm : CoreMessaging)
    (settings : GenerationSettings)
    (hmiss : getCachedResult env (generateCacheKey env.hash cm settings) = none)
    (hfail : genCallFails env cm settings = true) :
    generatePositioning env cm settings =
      .ok (createFallbackContent cm, { genCalled := true, writes := [] }) ∧
    (createFallbackContent cm).headline =
      (if !cm.secondaryAnchor.content.isEmpty then
         cm.primaryAnchor.content ++ " for ".toList ++ lowerStr cm.secondaryAnchor.content
       else "Professional ".toList ++ cm.primaryAnchor.content) ∧
    (createFallbackContent cm).subheadline =
      "Solve ".toList ++ lowerStr cm.problem ++ " with ".toList ++
        lowerStr cm.differentiator := by
  refine ⟨?_, rfl, rfl⟩
  simp only [generatePositioning, generateAttempt, generateWithSettings, hmiss]
  simp only [genCallFails] at hfail
  cases hg : env.genFetch
      (buildPrompt cm (buildContext (findSimilarExamples env (buildUserText cm) 3)))
      settings 800 with
  | none => rfl
  | some resp =>
      rw [hg] at hfail
      by_cases hok : resp.ok
      · by_cases hsucc : resp.success
        · simp [hok, hsucc] at hfail
        · simp [hok, hsucc]
      · simp [hok]

/-- C3 counterexample: the fallback headline lower-cases the secondary
anchor, so it differs from the verbatim claimed template
"primaryAnchor for secondaryAnchor" whenever the secondary anchor
contains an upper-case character. -/
theorem generation_failure_fallback_counterexample :
    generatePositioning baseEnv cmSample settingsSample =
      .ok (createFallbackContent cmSample, { genCalled := true, writes := [] }) ∧
    (createFallbackContent cmSample).headline ≠
      cmSample.primaryAnchor.content ++ " for ".toList ++
        cmSample.secondaryAnchor.content := by
  exact ⟨by rfl, by decide⟩

/-- C3 witness: in the concrete all-failing environment the hypotheses hold
and the pipeline returns the fallback with no cache write. -/
theorem generation_failure_fallback_witness :
    genCallFails baseEnv cmSample settingsSample = true ∧
    generatePositioning baseEnv cmSample settingsSample =
      .ok (createFallbackContent cmSample, { genCalled := true, writes := [] }) :=
  ⟨by rfl,
   (generation_failure_fallback baseEnv cmSample settingsSample (by rfl) (by rfl)).1⟩

/-- C5 (confirmed): the cache key is a pure deterministic function of the
lower-cased trimmed primary-anchor content, the lower-cased 50-character
prefixes of problem and differentiator, and `Math.round(10 * x)` of
temperature and top_p; two requests agreeing on those five projections get
the same key whatever their other fields (secondary anchor, ICP, thesis,
risks, anchor types, problem/differentiator tails). -/
theorem generateCacheKey_deterministic (hashFn : Str → Str)
    (r1 r2 : CoreMessaging) (s1 s2 : GenerationSettings)
    (hp : jsTrim (lowerStr r1.primaryAnchor.content) =
          jsTrim (lowerStr r2.primaryAnchor.content))
    (hq : lowerStr (r1.problem.take 50) = lowerStr (r2.problem.take 50))
    (hd : lowerStr (r1.differentiator.take 50) = lowerStr (r2.differentiator.take 50))
    (ht : jsRound (s1.temperature * 10) = jsRound (s2.temperature * 10))
    (hb : jsRound (s1.top_p * 10) = jsRound (s2.top_p * 10)) :
    generateCacheKey hashFn r1 s1 = generateCacheKey hashFn r2 s2 := by
  unfold generateCacheKey mkKeyData
  rw [hp, hq, hd, ht, hb]

/-- C5 witness: temperatures 0.31 and 0.34 round to the same bucket, and
the two sample requests differ in secondary anchor, ICP, thesis, risks,
anchor types and primary-anchor case and padding, yet get the same key. -/
theorem generateCacheKey_deterministic_witness :
    generateCacheKey (fun s => s) cmSample { temperature := 31/100, top_p := 8/10 } =
      generateCacheKey (fun s => s) cmKeyVariant { temperature := 34/100, top_p := 8/10 } :=
  generateCacheKey_deterministic (fun s => s) cmSample cmKeyVariant
    { temperature := 31/100, top_p := 8/10 } { temperature := 34/100, top_p := 8/10 }
    (by decide) (by decide) (by decide)
    (by norm_num [jsRound]) (by norm_num [jsRound])

/-- C10 (confirmed): the embedding-resolution chain never propagates an
error (it is a total function of the environment); whenever any stage of
the memory-lookup / persistent-cache / embedding-service chain fails it
returns the 1536-dimensional zero vector, and when every channel honours
the fixed dimensionality D = 1536 the returned query embedding always has
length 1536. -/
theorem getEmbeddingCached_safe (env : Env) (text : Str) :
    (embedChainFails env text = true →
       getEmbeddingCached env text = List.replicate 1536 0) ∧
    (envEmb1536 env → (getEmbeddingCached env text).length = 1536) := by
  constructor
  · intro hf
    simp only [embedChainFails, Bool.and_eq_true, Option.isNone_iff_eq_none] at hf
    obtain ⟨hmem, hrest⟩ := hf
    simp only [getEmbeddingCached, hmem]
    cases hdb : env.embedDb (env.hash (jsTrim (lowerStr text))) with
    | error u => rfl
    | ok o =>
        rw [hdb] at hrest
        cases o with
        | some v => exact absurd hrest (by simp)
        | none =>
            cases hf2 : env.embedFetch text with
            | none => simp only [generateEmbedding, hf2]
            | some r =>
                have hrest2 : (!r.ok || env.embedInsertThrows) = true := by
                  rw [hf2] at hrest
                  exact hrest
                simp only [generateEmbedding, hf2]
                cases hok : r.ok with
                | false => rfl
                | true =>
                    rw [hok] at hrest2
                    simp only [Bool.not_true, Bool.false_or] at hrest2
                    show (if env.embedInsertThrows = true then List.replicate 1536 0
                          else r.embedding) = List.replicate 1536 0
                    rw [hrest2]
                    exact if_pos rfl
  · intro hc
    obtain ⟨h1, h2, h3⟩ := hc
    simp only [getEmbeddingCached]
    cases hmem : env.memCache (env.hash (jsTrim (lowerStr text))) with
    | some v => exact h1 _ _ hmem
    | none =>
        cases hdb : env.embedDb (env.hash (jsTrim (lowerStr text))) with
        | error u => exact List.length_replicate 1536 0
        | ok o =>
            cases o with
            | some v => exact h2 _ _ hdb
            | none =>
                cases hf2 : env.embedFetch text with
                | none =>
                    simp only [generateEmbedding, hf2]
                    exact List.length_replicate 1536 0
                | some r =>
                    simp only [generateEmbedding, hf2]
                    cases hok : r.ok with
                    | false => exact List.length_replicate 1536 0
                    | true =>
                        show (if env.embedInsertThrows = true then List.replicate 1536 0
                              else r.embedding).length = 1536
                        cases hins : env.embedInsertThrows with
                        | true => exact List.length_replicate 1536 0
                        | false =>
                            simp only [Bool.false_eq_true, if_false]
                            exact h3 _ _ hf2

/-- C10 witness: in the concrete all-failing environment the chain fails
and the zero vector of length 1536 is returned. -/
theorem getEmbeddingCached_safe_witness :
    embedChainFails baseEnv ("x".toList) = true ∧
    getEmbeddingCached baseEnv ("x".toList) = List.replicate 1536 0 :=
  ⟨by rfl, (getEmbeddingCached_safe baseEnv ("x".toList)).1 (by rfl)⟩

/-- C6 (confirmed): if a run wrote its generated result to the generation
cache under key `k`, then a second identical request against a store holding
that entry, before its `expires_at` and with a working read path, returns
the stored content through the cache read alone: the generation service is
not invoked and nothing is written. -/
theorem cached_result_short_circuits (env1 env2 : Env) (cm : CoreMessaging)
    (settings : GenerationSettings) (r1 : GeneratedContent) (log1 : RunLog)
    (k : Str) (c : GeneratedContent) (e : Nat)
    (hrun1 : generatePositioning env1 cm settings = .ok (r1, log1))
    (hw : log1.writes = [{ key := k, content := c, expires_at := e }])
    (hhash : env2.hash = env1.hash)
    (hstore : env2.genCache k = some (c, e))
    (hread : env2.genCacheReadThrows k = false)
    (hfresh : env2.now < e) :
    generatePositioning env2 cm settings =
      .ok (c, { genCalled := false, writes := [] }) := by
  have hkey : k = generateCacheKey env1.hash cm settings := by
    simp only [generatePositioning, generateAttempt] at hrun1
    cases hc1 : getCachedResult env1 (generateCacheKey env1.hash cm settings) with
    | some cached =>
        rw [hc1] at hrun1
        simp only [Except.ok.injEq, Prod.mk.injEq] at hrun1
        rw [← hrun1.2] at hw
        simp at hw
    | none =>
        rw [hc1] at hrun1
        cases hg : generateWithSettings env1
            (buildPrompt cm (buildContext (findSimilarExamples env1 (buildUserText cm) 3)))
            settings cm with
        | ok result =>
            rw [hg] at hrun1
            simp only [Except.ok.injEq, Prod.mk.injEq] at hrun1
            rw [← hrun1.2] at hw
            simp only [cacheResultWrites] at hw
            cases hwf : env1.genCacheWriteFails with
            | true => rw [hwf] at hw; simp at hw
            | false =>
                rw [hwf] at hw
                simp only [Bool.false_eq_true, if_false, List.cons.injEq,
                  CacheWrite.mk.injEq, and_true] at hw
                exact hw.1.symm
        | error e2 =>
            rw [hg] at hrun1
            simp only [Except.ok.injEq, Prod.mk.injEq] at hrun1
            rw [← hrun1.2] at hw
            simp at hw
  simp only [generatePositioning, generateAttempt]
  have hgc : getCachedResult env2 (generateCacheKey env2.hash cm settings) = some c := by
    rw [hhash, ← hkey]
    simp only [getCachedResult, hread, hstore, Bool.false_eq_true, if_false]
    rw [if_pos hfresh]
  rw [hgc]

/-- C6 witness: a concrete first run writes its parsed result under the key
`K` with a 7-day expiry; a second identical request against a store holding
that entry at an earlier time returns it without calling the generation
service. -/
theorem cached_result_short_circuits_witness :
    generatePositioning envGenOK cmSample settingsSample =
      .ok (contentSample,
        { genCalled := true,
          writes := [{ key := "K".toList, content := contentSample,
                       expires_at := 604800000 }] }) ∧
    generatePositioning envCacheHit cmSample settingsSample =
      .ok (contentSample, { genCalled := false, writes := [] }) :=
  ⟨by rfl,
   cached_result_short_circuits envGenOK envCacheHit cmSample settingsSample
     contentSample
     { genCalled := true,
       writes := [{ key := "K".toList, content := contentSample,
                    expires_at := 604800000 }] }
     ("K".toList) contentSample 604800000
     (by rfl) (by rfl) rfl rfl rfl (by decide)⟩

theorem orDefault_ne_nil (s d : Str) (hd : d ≠ []) : orDefault s d ≠ [] := by
  by_cases h : s = []
  · simp [orDefault, h]
    exact hd
  · simp [orDefault, h]

theorem parseResponse_headline_ne_nil (text : Str) (cmo : Option CoreMessaging) :
    (parseResponse text cmo).headline ≠ [] := by
  simp only [parseResponse]
  exact orDefault_ne_nil _ _ (by decide)

theorem parseResponse_subheadline_ne_nil (text : Str) (cmo : Option CoreMessaging) :
    (parseResponse text cmo).subheadline ≠ [] := by
  simp only [parseResponse]
  exact orDefault_ne_nil _ _ (by decide)

theorem fallback_headline_ne_nil (cm : CoreMessaging) :
    (createFallbackContent cm).headline ≠ [] := by
  simp only [createFallbackContent]
  cases hse : cm.secondaryAnchor.content.isEmpty with
  | true =>
      show "Professional ".toList ++ cm.primaryAnchor.content ≠ []
      intro hEq
      rcases List.append_eq_nil.mp hEq with ⟨h1, _⟩
      exact absurd h1 (by decide)
  | false =>
      show cm.primaryAnchor.content ++ " for ".toList ++
        lowerStr cm.secondaryAnchor.content ≠ []
      intro hEq
      rcases List.append_eq_nil.mp hEq with ⟨h1, _⟩
      rcases List.append_eq_nil.mp h1 with ⟨_, h2⟩
      exact absurd h2 (by decide)

theorem fallback_subheadline_ne_nil (cm : CoreMessaging) :
    (createFallbackContent cm).subheadline ≠ [] := by
  simp only [createFallbackContent]
  intro hEq
  rcases List.append_eq_nil.mp hEq with ⟨h1, _⟩
  rcases List.append_eq_nil.mp h1 with ⟨h2, _⟩
  rcases List.append_eq_nil.mp h2 with ⟨h3, _⟩
  exact absurd h3 (by decide)

/-- C4 (corrected): retrieval returns the fixed fallback example list when
the vector store throws, returns an error, or returns a null row set (and
the embedding chain itself never errors, per `getEmbeddingCached`); but a
returned *empty* row list above the threshold is truthy in JS, so zero rows
yield the empty list rather than the fallback examples.  In every case a
pipeline run past the cache gate still produces a `GeneratedContent` with
non-empty headline and subheadline. -/
theorem retrieval_fallback (env : Env) (userText : Str) (limit : Nat)
    (cm : CoreMessaging) (settings : GenerationSettings) :
    (env.vectorSearch (getEmbeddingCached env userText) (6/10) limit = .error () →
       findSimilarExamples env userText limit = getFallbackExamples) ∧
    (∀ resp, env.vectorSearch (getEmbeddingCached env userText) (6/10) limit = .ok resp →
       resp.error.isSome = true →
       findSimilarExamples env userText limit = getFallbackExamples) ∧
    (∀ resp, env.vectorSearch (getEmbeddingCached env userText) (6/10) limit = .ok resp →
       resp.error = none → resp.data = none →
       findSimilarExamples env userText limit = getFallbackExamples) ∧
    (∀ resp, env.vectorSearch (getEmbeddingCached env userText) (6/10) limit = .ok resp →
       resp.error = none → resp.data = some [] →
       findSimilarExamples env userText limit = []) ∧
    (∀ r log, generatePositioning env cm settings = .ok (r, log) →
       getCachedResult env (generateCacheKey env.hash cm settings) = none →
       r.headline ≠ [] ∧ r.subheadline ≠ []) := by
  refine ⟨?_, ?_, ?_, ?_, ?_⟩
  · intro h
    simp only [findSimilarExamples, h]
  · intro resp h he
    simp only [findSimilarExamples, h]
    rw [if_pos he]
  · intro resp h he hd
    simp only [findSimilarExamples, h, he, hd, Option.isSome_none,
      Bool.false_eq_true, if_false]
  · intro resp h he hd
    simp only [findSimilarExamples, h, he, hd, Option.isSome_none,
      Bool.false_eq_true, if_false]
  · intro r log hrun hmiss
    simp only [generatePositioning, generateAttempt, hmiss] at hrun
    cases hg : generateWithSettings env
        (buildPrompt cm (buildContext (findSimilarExamples env (buildUserText cm) 3)))
        settings cm with
    | ok result =>
        rw [hg] at hrun
        simp only [Except.ok.injEq, Prod.mk.injEq] at hrun
        simp only [generateWithSettings] at hg
        cases hf : env.genFetch
            (buildPrompt cm (buildContext (findSimilarExamples env (buildUserText cm) 3)))
            settings 800 with
        | none => rw [hf] at hg; exact absurd hg (by simp)
        | some resp2 =>
            rw [hf] at hg
            by_cases hok : resp2.ok
            · by_cases hsucc : resp2.success
              · simp [hok, hsucc] at hg
                rw [← hrun.1, ← hg]
                exact ⟨parseResponse_headline_ne_nil _ _,
                       parseResponse_subheadline_ne_nil _ _⟩
              · simp [hok, hsucc] at hg
            · simp [hok] at hg
    | error e =>
        rw [hg] at hrun
        simp only [Except.ok.injEq, Prod.mk.injEq] at hrun
        rw [← hrun.1]
        exact ⟨fallback_headline_ne_nil cm, fallback_subheadline_ne_nil cm⟩

/-- C4 counterexample: when the vector store returns zero rows above the
threshold (an empty, non-null row list), retrieval returns the empty list
and not the non-empty static fallback example set the claim requires. -/
theorem retrieval_zero_rows_counterexample :
    findSimilarExamples baseEnv ("x".toList) 3 = [] ∧
    getFallbackExamples ≠ [] :=
  ⟨by rfl, by decide⟩

/-- C4 witness: a throwing vector store yields the fallback example list,
and the concrete zero-row environment yields the empty list. -/
theorem retrieval_fallback_witness :
    findSimilarExamples { baseEnv with vectorSearch := fun _ _ _ => .error () }
      ("x".toList) 3 = getFallbackExamples ∧
    findSimilarExamples baseEnv ("x".toList) 3 = [] :=
  ⟨(retrieval_fallback { baseEnv with vectorSearch := fun _ _ _ => .error () }
      ("x".toList) 3 cmSample settingsSample).1 (by rfl),
   (retrieval_fallback baseEnv ("x".toList) 3 cmSample settingsSample).2.2.2.1
      { data := some [], error := none } (by rfl) rfl rfl⟩

/-- C9 (corrected): the per-clause decision is exactly the claimed
threshold rule — problem iff the problem score is positive and exceeds the
solution score, solution iff the solution score is positive and not
exceeded — but the scores are substring-presence counts over the code
lexicons, whose solution list additionally contains "our platform",
"our solution" and "we"; the two scenario clauses classify as the claim
states. -/
theorem classifyDecisionProblemIff (p s : Nat) :
    classifyDecision p s = some ClauseKind.problem ↔ s < p ∧ 0 < p := by
  unfold classifyDecision
  constructor
  · intro h
    split_ifs at h with hc1 hc2
    · simp only [Bool.and_eq_true, decide_eq_true_eq] at hc1
      exact hc1
    · exact absurd h (by simp)
  · intro hok
    have hc : (decide (p > s) && decide (p > 0)) = true := by
      rw [decide_eq_true hok.1, decide_eq_true hok.2]
      rfl
    rw [if_pos hc]

theorem classifyDecisionSolutionIff (p s : Nat) :
    classifyDecision p s = some ClauseKind.solution ↔ 0 < s ∧ p ≤ s := by
  unfold classifyDecision
  constructor
  · intro h
    split_ifs at h with hc1 hc2
    · exact absurd h (by simp)
    · have h2 : ¬(s < p ∧ 0 < p) := by
        intro hb
        apply hc1
        rw [decide_eq_true hb.1, decide_eq_true hb.2]
        rfl
      rw [not_and_or] at h2
      rcases h2 with h2 | h2 <;> exact ⟨hc2, by omega⟩
  · intro hok
    have hcn : ¬((decide (p > s) && decide (p > 0)) = true) := by
      rw [decide_eq_false (Nat.not_lt.mpr hok.2), Bool.false_and]
      decide
    rw [if_neg hcn, if_pos hok.1]

theorem classifyClause_spec :
    (∀ clause,
      (classifyClause clause = some ClauseKind.problem ↔
        indicatorScore solutionIndicators (lowerStr clause) <
          indicatorScore problemIndicators (lowerStr clause) ∧
        0 < indicatorScore problemIndicators (lowerStr clause)) ∧
      (classifyClause clause = some ClauseKind.solution ↔
        0 < indicatorScore solutionIndicators (lowerStr clause) ∧
        indicatorScore problemIndicators (lowerStr clause) ≤
          indicatorScore solutionIndicators (lowerStr clause))) ∧
    classifyClause ("Teams waste hours manually tracking tasks".toList) =
      some ClauseKind.problem ∧
    classifyClause ("Automated real-time dashboards that update instantly".toList) =
      some ClauseKind.solution := by
  refine ⟨?_, by decide, by decide⟩
  intro clause
  have hcc : classifyClause clause =
      classifyDecision (indicatorScore problemIndicators (lowerStr clause))
        (indicatorScore solutionIndicators (lowerStr clause)) := rfl
  rw [hcc]
  exact ⟨classifyDecisionProblemIff _ _, classifyDecisionSolutionIff _ _⟩

/-- C9 counterexample: the clause "we streamline it" is classified as
solution by the code (the lexicon entry "we" hits), yet both lexicons of
the spec give it count zero, so under the claimed lexicons it would be left
unclassified. -/
theorem classifyClause_beyond_spec_lexicon :
    classifyClause ("we streamline it".toList) = some ClauseKind.solution ∧
    indicatorScore specSolutionLexicon (lowerStr ("we streamline it".toList)) = 0 ∧
    indicatorScore problemIndicators (lowerStr ("we streamline it".toList)) = 0 := by
  refine ⟨by decide, by decide, by decide⟩

/-- C9 witness: a clause with two solution hits and no problem hit is
classified as solution via the characterization. -/
theorem classifyClause_spec_witness :
    0 < indicatorScore solutionIndicators (lowerStr ("fast and easy".toList)) ∧
    classifyClause ("fast and easy".toList) = some ClauseKind.solution :=
  ⟨by decide,
   ((classifyClause_spec.1 ("fast and easy".toList)).2).mpr ⟨by decide, by decide⟩⟩

theorem mergeLoop_spec : ∀ (l : List PhrasePos) (cur : PhrasePos),
    List.Pairwise posLE (cur :: l) →
    cur.start ≤ cur.stop →
    (∀ x ∈ l, x.start ≤ x.stop) →
    List.Pairwise (fun a b => a.stop + 2 < b.start) (mergeLoop cur l) ∧
    (∀ x ∈ mergeLoop cur l, x.start ≤ x.stop ∧ cur.start ≤ x.start) := by
  intro l
  induction l with
  | nil =>
      intro cur _ hwf _
      refine ⟨List.pairwise_singleton _ _, ?_⟩
      intro x hx
      simp only [mergeLoop, List.mem_singleton] at hx
      subst hx
      exact ⟨hwf, Nat.le_refl _⟩
  | cons x rest ih =>
      intro cur hp hwf hwfl
      rcases List.pairwise_cons.mp hp with ⟨hcur, hxl⟩
      rcases List.pairwise_cons.mp hxl with ⟨hx, hrest⟩
      by_cases hmerge : x.start ≤ cur.stop + 2
      · have heq : mergeLoop cur (x :: rest) =
            mergeLoop { cur with stop := max cur.stop x.stop } rest := by
          simp only [mergeLoop]
          rw [if_pos hmerge]
        rw [heq]
        have hp' : List.Pairwise posLE ({ cur with stop := max cur.stop x.stop } :: rest) := by
          refine List.pairwise_cons.mpr ⟨?_, hrest⟩
          intro y hy
          exact hcur y (List.mem_cons_of_mem _ hy)
        have hres := ih { cur with stop := max cur.stop x.stop } hp'
          (Nat.le_trans hwf (Nat.le_max_left _ _))
          (fun y hy => hwfl y (List.mem_cons_of_mem _ hy))
        exact ⟨hres.1, fun z hz => (hres.2 z hz)⟩
      · have heq : mergeLoop cur (x :: rest) = cur :: mergeLoop x rest := by
          simp only [mergeLoop]
          rw [if_neg hmerge]
        rw [heq]
        have hres := ih x hxl (hwfl x (List.mem_cons_self _ _))
          (fun y hy => hwfl y (List.mem_cons_of_mem _ hy))
        constructor
        · refine List.pairwise_cons.mpr ⟨?_, hres.1⟩
          intro y hy
          have hxy := (hres.2 y hy).2
          omega
        · intro z hz
          rcases List.mem_cons.mp hz with hz | hz
          · subst hz
            exact ⟨hwf, Nat.le_refl _⟩
          · exact ⟨(hres.2 z hz).1,
              Nat.le_trans (hcur x (List.mem_cons_self _ _)) ((hres.2 z hz).2)⟩

theorem phrasePositions_sorted (colorPhrases : List Phrase) (fullText : Str) :
    List.Pairwise posLE (phrasePositions colorPhrases fullText) :=
  List.sorted_insertionSort posLE _

theorem phrasePositions_wf (colorPhrases : List Phrase) (fullText : Str) :
    ∀ x ∈ phrasePositions colorPhrases fullText, x.start ≤ x.stop := by
  intro x hx
  unfold phrasePositions at hx
  have hx' := (List.perm_insertionSort posLE _).mem_iff.mp hx
  rcases List.mem_filterMap.mp hx' with ⟨ph, _, hsome⟩
  rcases Option.map_eq_some'.mp hsome with ⟨i, _, hEq⟩
  rw [← hEq]
  exact Nat.le_add_right _ _

/-- C8 (confirmed): in the merge-phase output for any color, the spans come
sorted by start and every two consecutive spans satisfy
`stop + 2 < start` of the next; together with `start ≤ stop` for every span
this means any two distinct same-color spans are disjoint and separated by
a gap of more than 2 characters. -/
theorem merged_spans_gap (phrases : List Phrase) (fullText : Str) (color : Str) :
    List.Pairwise (fun a b => a.stop + 2 < b.start)
      (mergedSpansForColor phrases fullText color) ∧
    (∀ x ∈ mergedSpansForColor phrases fullText color, x.start ≤ x.stop) := by
  unfold mergedSpansForColor
  cases hpp : phrasePositions (phrases.filter (fun p => p.color == color)) fullText with
  | nil => exact ⟨List.Pairwise.nil, by simp⟩
  | cons x xs =>
      have hsorted := phrasePositions_sorted (phrases.filter (fun p => p.color == color)) fullText
      have hwf := phrasePositions_wf (phrases.filter (fun p => p.color == color)) fullText
      rw [hpp] at hsorted
      have hres := mergeLoop_spec xs x hsorted
        (hwf x (by rw [hpp]; exact List.mem_cons_self _ _))
        (fun y hy => hwf y (by rw [hpp]; exact List.mem_cons_of_mem _ hy))
      exact ⟨hres.1, fun z hz => (hres.2 z hz).1⟩

/-- Well-formedness of the highlight map: every entry has positive length
and fits inside the text. -/
def mapWF (entries : List HLEntry) (tlen : Nat) : Prop :=
  ∀ e ∈ entries, 1 ≤ e.len ∧ e.pos + e.len ≤ tlen

theorem mapSet_wf {entries : List HLEntry} {tlen : Nat} (h : mapWF entries tlen)
    {e : HLEntry} (he : 1 ≤ e.len ∧ e.pos + e.len ≤ tlen) :
    mapWF (mapSet entries e) tlen := by
  unfold mapSet
  by_cases hc : entries.any (fun x => x.pos == e.pos) = true
  · rw [if_pos hc]
    intro y hy
    rcases List.mem_map.mp hy with ⟨x, hx, hxe⟩
    by_cases hpx : (x.pos == e.pos) = true
    · rw [if_pos hpx] at hxe
      rw [← hxe]
      exact he
    · rw [if_neg hpx] at hxe
      rw [← hxe]
      exact h x hx
  · rw [if_neg hc]
    intro y hy
    rcases List.mem_append.mp hy with hy | hy
    · exact h y hy
    · rw [List.mem_singleton] at hy
      subst hy
      exact he

theorem insertLoop_wf (srcLower patLower color : Str) (patLen : Nat)
    (hpl : patLen = patLower.length) (hlen : 1 ≤ patLen) :
    ∀ fuel si entries, mapWF entries srcLower.length →
      mapWF (insertLoop srcLower patLower color patLen entries si fuel)
        srcLower.length := by
  intro fuel
  induction fuel with
  | zero => intro si entries h; exact h
  | succ n ih =>
      intro si entries h
      simp only [insertLoop]
      by_cases hsi : si < srcLower.length
      · rw [if_pos hsi]
        cases hio : indexOfFrom srcLower patLower si with
        | none => simp only [hio]; exact h
        | some fi =>
            simp only [hio]
            have hb := indexOfFrom_bounds hio
            by_cases hfree : rangeFree entries fi patLen = true
            · rw [if_pos hfree]
              exact mapSet_wf h ⟨hlen, by rw [hpl]; exact hb.2⟩
            · rw [if_neg hfree]
              exact ih (fi + 1) entries h
      · rw [if_neg hsi]
        exact h

theorem buildHighlightMap_wf (text : Str) (highlights : List Highlight)
    (hne : ∀ hl ∈ highlights, hl.text ≠ []) :
    mapWF (buildHighlightMap text highlights) text.length := by
  unfold buildHighlightMap
  have aux : ∀ (hs : List Highlight), (∀ hl ∈ hs, hl.text ≠ []) →
      ∀ entries, mapWF entries text.length →
      mapWF (hs.foldl (fun entries hl =>
        insertLoop (lowerStr text) (lowerStr hl.text) hl.color hl.text.length
          entries 0 (text.length + 1)) entries) text.length := by
    intro hs
    induction hs with
    | nil => intro _ entries h; exact h
    | cons hl rest ihs =>
        intro hne2 entries h
        simp only [List.foldl_cons]
        apply ihs (fun y hy => hne2 y (List.mem_cons_of_mem _ hy))
        have h1 : 1 ≤ hl.text.length :=
          List.length_pos.mpr (hne2 hl (List.mem_cons_self _ _))
        have h' : mapWF entries (lowerStr text).length := by
          rw [lowerStr_length]
          exact h
        have hres := insertLoop_wf (lowerStr text) (lowerStr hl.text) hl.color
          hl.text.length (lowerStr_length hl.text).symm h1 (text.length + 1) 0 entries h'
        rw [lowerStr_length] at hres
        exact hres
  exact aux highlights hne [] (fun e he => absurd he (List.not_mem_nil e))

theorem nextStop_gt (entries : List HLEntry) (tlen i : Nat) (h : i < tlen) :
    i < nextStop entries tlen i := by
  unfold nextStop
  induction entries generalizing tlen with
  | nil => exact h
  | cons e rest ih =>
      simp only [List.foldl_cons]
      by_cases hc : (decide (e.pos > i) && decide (e.pos < tlen)) = true
      · rw [if_pos hc]
        simp only [Bool.and_eq_true, decide_eq_true_eq] at hc
        exact ih e.pos hc.1
      · rw [if_neg hc]
        exact ih tlen h

theorem nextStop_le (entries : List HLEntry) (tlen i : Nat) :
    nextStop entries tlen i ≤ tlen := by
  unfold nextStop
  induction entries generalizing tlen with
  | nil => exact Nat.le_refl _
  | cons e rest ih =>
      simp only [List.foldl_cons]
      by_cases hc : (decide (e.pos > i) && decide (e.pos < tlen)) = true
      · rw [if_pos hc]
        simp only [Bool.and_eq_true, decide_eq_true_eq] at hc
        exact Nat.le_trans (ih e.pos) (Nat.le_of_lt hc.2)
      · rw [if_neg hc]
        exact ih tlen

theorem substring_length (s : Str) (a b : Nat) :
    (substring s a b).length = min (b - a) (s.length - a) := by
  simp [substring]

theorem substring_concat (s : Str) (a b : Nat) (hab : a ≤ b) :
    substring s a b ++ s.drop b = s.drop a := by
  unfold substring
  have hd : s.drop b = (s.drop a).drop (b - a) := by
    rw [List.drop_drop]
    congr 1
    omega
  rw [hd, List.take_append_drop]

theorem runsConcat_cons (r : Run) (rs : List Run) :
    runsConcat (r :: rs) = r.chunk ++ runsConcat rs := rfl

theorem walkAux_spec (text : Str) (entries : List HLEntry)
    (hwf : mapWF entries text.length) :
    ∀ fuel i, i ≤ text.length → text.length - i < fuel →
      ∃ rs, walkAux text entries fuel i = some rs ∧
        runsConcat rs = text.drop i ∧
        (∀ r ∈ rs, i ≤ r.start) ∧
        List.Pairwise (fun a b => Run.stop a ≤ Run.start b) rs := by
  intro fuel
  induction fuel with
  | zero => intro i _ hf; exact absurd hf (Nat.not_lt_zero _)
  | succ n ih =>
      intro i hi hf
      by_cases hlt : i < text.length
      · cases hfind : entries.find? (fun e => e.pos == i) with
        | some e =>
            have hmem := List.mem_of_find?_eq_some hfind
            have hpos : e.pos = i := by
              have hbeq := List.find?_some hfind
              simpa using hbeq
            have hewf := hwf e hmem
            have hstep : i + e.len ≤ text.length := by omega
            have hfuel : text.length - (i + e.len) < n := by omega
            obtain ⟨rs, hw, hconcat, hstarts, hpw⟩ := ih (i + e.len) hstep hfuel
            refine ⟨Run.highlighted i (i + e.len) (substring text i (i + e.len)) e.color :: rs,
              ?_, ?_, ?_, ?_⟩
            · simp only [walkAux]
              rw [if_pos hlt]
              simp only [hfind]
              rw [hw]
              rfl
            · rw [runsConcat_cons, hconcat]
              exact substring_concat text i (i + e.len) (Nat.le_add_right _ _)
            · intro r hr
              rcases List.mem_cons.mp hr with hr | hr
              · subst hr
                exact Nat.le_refl i
              · exact Nat.le_trans (Nat.le_add_right i e.len) (hstarts r hr)
            · exact List.pairwise_cons.mpr ⟨fun r hr => hstarts r hr, hpw⟩
        | none =>
            have hnext_gt := nextStop_gt entries text.length i hlt
            have hnext_le := nextStop_le entries text.length i
            have hfuel : text.length - nextStop entries text.length i < n := by omega
            obtain ⟨rs, hw, hconcat, hstarts, hpw⟩ :=
              ih (nextStop entries text.length i) hnext_le hfuel
            have hseglen : 0 < (substring text i (nextStop entries text.length i)).length := by
              rw [substring_length]
              refine Nat.lt_min.mpr ⟨?_, ?_⟩ <;> omega
            have hseg : substring text i (nextStop entries text.length i) ≠ [] :=
              List.length_pos.mp hseglen
            refine ⟨Run.plain i (nextStop entries text.length i)
              (substring text i (nextStop entries text.length i)) :: rs, ?_, ?_, ?_, ?_⟩
            · simp only [walkAux]
              rw [if_pos hlt]
              simp only [hfind]
              rw [hw]
              exact congrArg some (if_neg hseg)
            · rw [runsConcat_cons, hconcat]
              exact substring_concat text i _ (Nat.le_of_lt hnext_gt)
            · intro r hr
              rcases List.mem_cons.mp hr with hr | hr
              · subst hr
                exact Nat.le_refl i
              · exact Nat.le_trans (Nat.le_of_lt hnext_gt) (hstarts r hr)
            · exact List.pairwise_cons.mpr ⟨fun r hr => hstarts r hr, hpw⟩
      · have hieq : i = text.length := by omega
        refine ⟨[], ?_, ?_, ?_, ?_⟩
        · simp only [walkAux]
          rw [if_neg hlt]
        · rw [hieq, List.drop_length]
          rfl
        · intro r hr
          exact absurd hr (List.not_mem_nil r)
        · exact List.Pairwise.nil

/-- C7 (corrected): when every highlight phrase is non-empty, the
render-time walk terminates and its emitted runs concatenate, in order,
exactly to the original text, with consecutive runs adjacent, so emitted
runs — in particular the highlighted ones — are mutually non-overlapping.
(An empty highlight phrase makes the JS walk loop forever; see the
counterexample.) -/
theorem createHighlightedText_coverage (text : Str) (highlights : List Highlight)
    (hne : ∀ hl ∈ highlights, hl.text ≠ []) :
    ∃ rs, createHighlightedText text highlights = some rs ∧
      runsConcat rs = text ∧
      List.Pairwise (fun a b => Run.stop a ≤ Run.start b) rs ∧
      List.Pairwise (fun a b => Run.stop a ≤ Run.start b)
        (rs.filter (fun r => r.isHighlighted)) := by
  have hwf := buildHighlightMap_wf text highlights hne
  obtain ⟨rs, hw, hconcat, hstarts, hpw⟩ :=
    walkAux_spec text (buildHighlightMap text highlights) hwf (text.length + 1) 0
      (Nat.zero_le _) (by omega)
  rw [List.drop_zero] at hconcat
  by_cases hrs : rs = []
  · subst hrs
    have htext : text = [] := by
      have hrc : runsConcat ([] : List Run) = [] := rfl
      rw [hrc] at hconcat
      exact hconcat.symm
    refine ⟨[Run.plain 0 text.length text], ?_, ?_, ?_, ?_⟩
    · simp only [createHighlightedText]
      rw [hw]
      rfl
    · rw [runsConcat_cons]
      have hnilc : runsConcat ([] : List Run) = [] := rfl
      rw [hnilc, List.append_nil]
      rfl
    · exact List.pairwise_singleton _ _
    · subst htext
      decide
  · refine ⟨rs, ?_, hconcat, hpw, ?_⟩
    · simp only [createHighlightedText]
      rw [hw]
      exact congrArg some (if_neg hrs)
    · exact List.Pairwise.sublist (List.filter_sublist rs) hpw

/-- C7 counterexample: a single empty highlight phrase is registered at
position 0 with length 0, so the walk never advances past position 0 and
the JS loop runs forever; in the fuelled model no run list is produced, so
no emitted runs reconstruct the text. -/
theorem createHighlightedText_empty_phrase_diverges :
    createHighlightedText ("ab".toList) [{ text := [], color := "red".toList }] = none := by
  rfl

/-- C7 witness: two concrete non-empty phrases produce a terminating walk
whose runs cover the text losslessly. -/
theorem createHighlightedText_coverage_witness :
    (∀ hl ∈ ([{ text := "task tool".toList, color := "y".toList },
              { text := "teams".toList, color := "b".toList }] : List Highlight),
        hl.text ≠ []) ∧
    (∃ rs, createHighlightedText ("task tool for dev teams".toList)
        ([{ text := "task tool".toList, color := "y".toList },
          { text := "teams".toList, color := "b".toList }] : List Highlight) = some rs ∧
      runsConcat rs = "task tool for dev teams".toList ∧
      List.Pairwise (fun a b => Run.stop a ≤ Run.start b) rs ∧
      List.Pairwise (fun a b => Run.stop a ≤ Run.start b)
        (rs.filter (fun r => r.isHighlighted))) :=
  ⟨by decide,
   createHighlightedText_coverage ("task tool for dev teams".toList)
     ([{ text := "task tool".toList, color := "y".toList },
       { text := "teams".toList, color := "b".toList }] : List Highlight)
     (by decide)⟩

end PosViz
